import Mathlib

/-!
Shallow embedding of `src/tuikit.py` (proikla/tuikit): the key decoders, the
element/page/navigation data model, the invocation logic of
`UI._Page._Element.__call__`, and the state-machine operations of `UI`.

Modelling conventions:
* Python object identity of pages is modelled by a `pid : Nat` field; every
  page created by `add_page` carries a distinct pid.  `page in self.pages`
  and `self.pages.index(page)` compare by identity, hence by pid.
* The field `UI._current_page` holds a reference to a page object; mutations
  of a page object are performed with `touchPage`, which rewrites every copy
  with the same pid (the list entry and the `current_page` alias), keeping
  the aliases consistent, since pids are unique object identities.
* `selected_element` holds a reference to an element of the page; it is
  modelled as the index of that element.  `elements.index(selected_element)`
  returns exactly that index when it is in range; `None` (and a reference to
  a removed element) makes `list.index` raise `ValueError`, modelled by
  `pyIndexSel`.
* Payload values (`params`) are modelled by `PyVal`: `None`, integers, and
  flat tuples of scalars - the shapes the invocation contract of `__call__`
  distinguishes (`isinstance(self.params, tuple)` vs anything else).
* Python exceptions are modelled by the `Except PyErr` monad.
-/

namespace Tuikit

/-- Python exceptions raised by the modelled code paths. -/
inductive PyErr where
  | valueError (msg : String)
  | typeError (msg : String)
  | attributeError (msg : String)
  | indexError
  deriving DecidableEq, Repr

/-- Scalar payload values: `None` and integers. -/
inductive Scalar where
  | snone
  | sint (n : Int)
  deriving DecidableEq, Repr

/-- Payload values (`Element.params`): a scalar, or a tuple of scalars
(the shape `isinstance(self.params, tuple)` tests for). -/
inductive PyVal where
  | scalar (s : Scalar)
  | tuple (vs : List Scalar)
  deriving DecidableEq, Repr

/-- Test modelling `isinstance(self.params, tuple)`. -/
def PyVal.isTuple : PyVal → Bool
  | .tuple _ => true
  | .scalar _ => false

/-- A bound action.  `arity` is `command.__code__.co_argcount`, already
adjusted for a leading `self` parameter as `__call__` does. -/
structure Command where
  arity : Nat
  deriving DecidableEq, Repr

/-- Element alignment (`'left'`, `'center'`, `'right'`). -/
inductive Alignment where
  | left
  | center
  | right
  deriving DecidableEq, Repr

/-- `UI._Page._Element`: label, optional bound action, payload, style code,
alignment, status. `color` is the numeric ANSI code of the style member. -/
structure Element where
  label : String
  command : Option Command
  params : PyVal
  color : Nat
  alignment : Alignment
  status : String
  deriving DecidableEq, Repr

/-- Calling a Python function whose declared positional arity is `arity`
with the positional argument list `args`: succeeds exactly when the counts
match, otherwise raises `TypeError`. -/
def pyCall (arity : Nat) (args : List PyVal) : Except PyErr (List PyVal) :=
  if args.length = arity then .ok args
  else .error (.typeError "positional argument count mismatch")

/-- `UI._Page._Element.__call__`: returns `none` when there is no bound
command (the early `return None`), otherwise `some args` where `args` is the
positional argument list the command was called with; Python `TypeError`s
from the call (wrong argument count, star-unpacking a non-iterable) are
propagated as errors. -/
def elementCall (e : Element) : Except PyErr (Option (List PyVal)) :=
  match e.command with
  | none => .ok none
  | some c =>
    if c.arity = 0 ∧ e.params.isTuple = false then
      (pyCall 0 []).map some
    else if c.arity = 1 then
      (pyCall 1 [e.params]).map some
    else
      match e.params with
      | .tuple vs => (pyCall c.arity (vs.map PyVal.scalar)).map some
      | .scalar _ => .error (.typeError "argument after star must be an iterable")

/-- Portable key values produced by the decoders. -/
inductive Keypress where
  | up
  | down
  | left
  | right
  | interrupt
  | ch (c : Char)
  deriving DecidableEq, Repr

/-- Outcome of one decoder call: a key, or Python `None` (no key). -/
inductive DecodeOut where
  | key (k : Keypress)
  | noKey
  deriving DecidableEq, Repr

/-- `get_keypress` (posix branch): reads one char from `stream`; `'\x03'`
delivers SIGINT (KeyboardInterrupt); on the escape char it reads exactly two
more chars and maps the four arrow sequences, any other pair falling through
to `return key`, which returns the escape char itself.  `none` models
blocking on an exhausted stream. -/
def get_keypress_posix : List Char → Option (DecodeOut × List Char)
  | [] => none
  | k :: rest =>
    if k = '\x03' then some (.key .interrupt, rest)
    else if k = '\x1b' then
      match rest with
      | a :: b :: rest2 =>
        if a = '[' ∧ b = 'A' then some (.key .up, rest2)
        else if a = '[' ∧ b = 'B' then some (.key .down, rest2)
        else if a = '[' ∧ b = 'D' then some (.key .left, rest2)
        else if a = '[' ∧ b = 'C' then some (.key .right, rest2)
        else some (.key (.ch k), rest2)
      | _ => none
    else some (.key (.ch k), rest)

/-- `get_keypress` (nt branch), over a byte stream: `0x03` raises
KeyboardInterrupt; on the introducer bytes `0x00`/`0xe0` it reads exactly one
more byte and maps `H`/`P`/`K`/`M` to the arrows, returning Python `None`
for any other byte; any other first byte is decoded as a character. -/
def get_keypress_nt : List Nat → Option (DecodeOut × List Nat)
  | [] => none
  | k :: rest =>
    if k = 0x03 then some (.key .interrupt, rest)
    else if k = 0x00 ∨ k = 0xe0 then
      match rest with
      | b :: rest2 =>
        if b = 72 then some (.key .up, rest2)
        else if b = 80 then some (.key .down, rest2)
        else if b = 75 then some (.key .left, rest2)
        else if b = 77 then some (.key .right, rest2)
        else some (.noKey, rest2)
      | [] => none
    else some (.key (.ch (Char.ofNat k)), rest)

/-- `UI._Page`: label, owned elements, default padding string, and the
selected element (a reference, modelled by its index; see the header
comment).  `pid` models the object identity of the page. -/
structure Page where
  pid : Nat
  label : String
  elements : List Element
  default_padding : String
  selected : Option Nat
  deriving DecidableEq, Repr

/-- The `selected_element` property setter: `None` and members of
`self.elements` are assigned; a non-member assignment is a silent no-op. -/
def Page.setSelected (p : Page) (s : Option Nat) : Page :=
  match s with
  | none => { p with selected := none }
  | some i => if i < p.elements.length then { p with selected := some i } else p

/-- `self.elements.index(self.selected_element)`: the index of the selected
element when the reference is a live member; `list.index` raises
`ValueError` when the argument (`None`, or a reference to a removed
element) is not in the list. -/
def pyIndexSel (p : Page) : Except PyErr Nat :=
  match p.selected with
  | none => .error (.valueError "not in list")
  | some i => if i < p.elements.length then .ok i else .error (.valueError "not in list")

/-- `Page.add_element` / `Page.append_element`: appends a fresh element
(`status` starts empty, as in `_Element.__init__`). -/
def Page.add_element (p : Page) (label : String) (command : Option Command)
    (params : PyVal) (color : Nat) (alignment : Alignment) : Page :=
  { p with elements := p.elements ++
      [{ label := label, command := command, params := params, color := color,
         alignment := alignment, status := "" }] }

/-- The `UI` object: pages, name, the current-page reference and index, the
header-display flags and the header cache. -/
structure UIState where
  pages : List Page
  name : String
  current_page : Option Page
  current_page_index : Int
  show_name : Bool
  show_current_page_idx : Bool
  show_current_page_name : Bool
  header : String
  has_custom_header : Bool
  deriving DecidableEq, Repr

/-- Mutation of the page object with identity `pid`: rewrites the list entry
and the `current_page` alias carrying that pid (pids are unique, so this is
exactly the Python in-place mutation of one object). -/
def touchPage (st : UIState) (pid : Nat) (f : Page → Page) : UIState :=
  { st with
    pages := st.pages.map fun q => if q.pid = pid then f q else q,
    current_page := st.current_page.map fun q => if q.pid = pid then f q else q }

/-- First index of the page object with identity `pid`
(`self.pages.index(page)`). -/
def findPidIdx : List Page → Nat → Option Nat
  | [], _ => none
  | p :: ps, pid =>
    if p.pid = pid then some 0 else (findPidIdx ps pid).map (· + 1)

/-- The `current_page` property setter: assigns the page and its index only
when the page (identified by pid) is a member of `pages`. -/
def setCurrentPage (st : UIState) (pid : Nat) : UIState :=
  match findPidIdx st.pages pid with
  | some j =>
    match st.pages[j]? with
    | some q => { st with current_page := some q, current_page_index := (j : Int) }
    | none => st
  | none => st

/-- The `current_page_index` property setter: assigns index and page only
when `0 <= idx < len(pages)`; out-of-range assignments are silently
ignored. -/
def set_current_page_index (st : UIState) (idx : Int) : UIState :=
  if 0 ≤ idx ∧ idx < (st.pages.length : Int) then
    match st.pages[idx.toNat]? with
    | some q => { st with current_page_index := idx, current_page := some q }
    | none => st
  else st

/-- Resolution of a Python list index (negative indices count from the end);
`none` models `IndexError`. -/
def pyResolve (len : Nat) (i : Int) : Option Nat :=
  if 0 ≤ i then
    if i < (len : Int) then some i.toNat else none
  else
    if -i ≤ (len : Int) then some (len - (-i).toNat) else none

/-- The header string `make_header` generates: `" P: "`, the current page
label and a newline when a current page exists and the flag is on, a space,
the name fragment, the 1-based index fragment, `"/"`, page count, newline. -/
def make_header_str (st : UIState) : String :=
  " P: "
  ++ (match st.current_page with
      | some p => if st.show_current_page_name then p.label ++ "\n" else ""
      | none => "")
  ++ " "
  ++ (if st.show_name then st.name ++ " " else "")
  ++ (if st.show_current_page_idx then toString (st.current_page_index + 1) else "")
  ++ "/" ++ toString st.pages.length ++ "\n"

/-- `UI.make_header`: assigns the generated header to `self.header` and
returns it. -/
def make_header (st : UIState) : UIState × String :=
  let h := make_header_str st
  ({ st with header := h }, h)

/-- `UI.__init__`: empty page list, sentinel current page (`None`) and index
`-1`; a non-empty `header` argument installs a custom header, otherwise the
auto-header is generated (and cached) by `make_header`. -/
def UI_init (name : String) (customHeader : Option String)
    (show_name show_current_page show_current_page_name : Bool) : UIState :=
  let base : UIState :=
    { pages := [], name := name, current_page := none, current_page_index := -1,
      show_name := show_name, show_current_page_idx := show_current_page,
      show_current_page_name := show_current_page_name,
      header := "", has_custom_header := false }
  match customHeader with
  | some h =>
    if h.isEmpty then { base with header := make_header_str base }
    else { base with header := h, has_custom_header := true }
  | none => { base with header := make_header_str base }

/-- `UI.add_page`: appends a fresh page (selected element unset); when it is
the first page it becomes current.  `pid` is the identity of the new page
object (fresh by construction). -/
def add_page (st : UIState) (pid : Nat) (label : String) (default_padding : Nat) :
    UIState × Page :=
  let page : Page :=
    { pid := pid, label := label, elements := [],
      default_padding := String.mk (List.replicate default_padding ' '),
      selected := none }
  let st1 := { st with pages := st.pages ++ [page] }
  let st2 := if st1.pages.length = 1 then setCurrentPage st1 pid else st1
  (st2, page)

/-- `UI.goto`: switches the current page when the argument is a member of
`pages` (the membership test and the property setter check the same
condition, so the net effect is the setter). -/
def goto (st : UIState) (pid : Nat) : UIState :=
  setCurrentPage st pid

/-- First removal by object identity, `list.remove`. -/
def removeFirstPid : List Page → Nat → List Page
  | [], _ => []
  | p :: ps, pid => if p.pid = pid then ps else p :: removeFirstPid ps pid

/-- `UI.delete_page` applied to a page object: removes the first identity
match when the page is in `pages`; otherwise the argument is not a string,
so the final `else` raises `TypeError`.  The current page reference and
index are not adjusted. -/
def delete_page_ref (st : UIState) (pid : Nat) : Except PyErr UIState :=
  if st.pages.any fun p => p.pid = pid then
    .ok { st with pages := removeFirstPid st.pages pid }
  else .error (.typeError "page must be a Page instance or string name")

/-- `getattr(p, "name", None)`: `_Page` defines `label` but no attribute
`name`, so this is `None` for every page. -/
def pageNameAttr (_p : Page) : Option String := none

/-- `UI.delete_page` applied to a string: a string is never identity-equal
to a page, so the loop looks for a page whose `name` attribute equals the
string and recurses on it; an exhausted loop raises `ValueError`. -/
def delete_page_str (st : UIState) (s : String) : Except PyErr UIState :=
  match st.pages.find? (fun p => pageNameAttr p == some s) with
  | some p => delete_page_ref st p.pid
  | none => .error (.valueError "Page with name not found")

/-- `' ' * n` for a possibly negative count (negative counts give the empty
string in Python). -/
def spacesI (i : Int) : String :=
  String.mk (List.replicate i.toNat ' ')

/-- `_Element.get_padding`: padding from the terminal width, the label
length and the element alignment. -/
def get_padding (e : Element) (width : Nat) (offset : Int) : String :=
  match e.alignment with
  | .center => spacesI ((width : Int) / 2 - (e.label.length : Int) / 2 + offset)
  | .left => spacesI offset
  | .right => spacesI ((width : Int) - (e.label.length : Int) + offset)

/-- The `color()` helper: ANSI escape prefix for a set of style codes;
duplicates merge and `REGULAR` (code 0) is dropped.  `color []` is the bare
reset `color()` returns for no style.  The iteration order of the code set
is fixed as insertion order in this model. -/
def color (codes : List Nat) : String :=
  "\x1b[" ++ String.intercalate ";" ((codes.dedup.filter fun c => c ≠ 0).map toString) ++ "m"

/-- One element line of `UI.render`: optional width-2 index label, padding
(the page default when non-empty, otherwise alignment padding), the style
prefix (inverted when the element is the page's selected element), the label
(with status when requested) and the style reset. -/
def render_line (p : Page) (width : Nat) (render_status show_index : Bool)
    (idx : Nat) (e : Element) : String :=
  let index :=
    if show_index then
      (let s := toString (idx + 1)
       (if s.length < 2 then " " ++ s else s) ++ ": ")
    else ""
  let padding :=
    if p.default_padding ≠ "" then p.default_padding
    else get_padding e width (-(index.length : Int))
  let codes := if p.selected = some idx then [e.color, 7] else [e.color]
  let nm := if render_status then e.label ++ " " ++ e.status else e.label
  padding ++ color codes ++ index ++ nm ++ color []

/-- `UI.render`: picks the argument page or the current page, refreshes the
header through `make_header` unless a custom header is installed (this
assigns `self.header`), then builds the display buffer; with no page at all,
`page.elements` raises `AttributeError` (after the header was already
refreshed).  Returns the state after the call and the buffer or the
exception. -/
def render (st : UIState) (pageArg : Option Page) (render_status show_index : Bool)
    (width : Nat) : UIState × Except PyErr (List String) :=
  let page? := match pageArg with | some p => some p | none => st.current_page
  let hs := if st.has_custom_header then (st, st.header) else make_header st
  match page? with
  | none => (hs.1, .error (.attributeError "NoneType has no attribute elements"))
  | some p =>
    (hs.1, .ok (hs.2 :: (p.elements.enum.map fun ie =>
      render_line p width render_status show_index ie.1 ie.2)))

/-- The keys `handle_navigation_key` distinguishes; `'d'`/`'right'` and the
other synonym pairs take identical branches and are collapsed to one
constructor each. -/
inductive Key where
  | enter
  | right
  | left
  | up
  | down
  | other (c : Char)
  deriving DecidableEq, Repr

/-- The value `handle_navigation_key` returns: the key itself, or the
selected element (by index, `none` for Python `None`) after Enter. -/
inductive NavRet where
  | retKey (k : Key)
  | retElem (sel : Option Nat)
  deriving DecidableEq, Repr

/-- Result of one `handle_navigation_key` call: the state after the call,
the element action invocation performed (element index and positional
arguments), and the returned value. -/
structure NavOut where
  state : UIState
  invoked : Option (Nat × List PyVal)
  ret : NavRet
  deriving DecidableEq, Repr

/-- `UI.handle_navigation_key`.  Enter invokes the selected element of the
current page (recorded, not executed); d/right clears the selection of
`pages[current_page_index]` and increments the index through the guarded
setter; a/left is symmetric; w/up and s/down move the selection within the
current page; any other key falls through to `return key`.  Python
exceptions of every branch are modelled: `AttributeError` when
`current_page` is `None`, `IndexError` from `pages[current_page_index]`,
`ValueError` from `elements.index(None)`. -/
def handle_navigation_key (st : UIState) (key : Key) : Except PyErr NavOut :=
  match key with
  | .enter =>
    match st.current_page with
    | none => .error (.attributeError "NoneType has no attribute selected_element")
    | some p =>
      match p.selected with
      | none => .ok ⟨st, none, .retElem none⟩
      | some i =>
        match p.elements[i]? with
        | none => .error (.valueError "selected element reference is stale")
        | some e =>
          match elementCall e with
          | .error err => .error err
          | .ok r => .ok ⟨st, r.map fun args => (i, args), .retElem (some i)⟩
  | .right =>
    match pyResolve st.pages.length st.current_page_index with
    | none => .error .indexError
    | some j =>
      match st.pages[j]? with
      | none => .error .indexError
      | some q =>
        let st1 := touchPage st q.pid fun r => r.setSelected none
        let st2 := set_current_page_index st1 (st1.current_page_index + 1)
        .ok ⟨st2, none, .retKey .right⟩
  | .left =>
    match pyResolve st.pages.length st.current_page_index with
    | none => .error .indexError
    | some j =>
      match st.pages[j]? with
      | none => .error .indexError
      | some q =>
        let st1 := touchPage st q.pid fun r => r.setSelected none
        let st2 := set_current_page_index st1 (st1.current_page_index - 1)
        .ok ⟨st2, none, .retKey .left⟩
  | .up =>
    match st.current_page with
    | none => .error (.attributeError "NoneType has no attribute selected_element")
    | some p =>
      if p.selected = none ∧ p.elements ≠ [] then
        .ok ⟨touchPage st p.pid fun q => q.setSelected (some (q.elements.length - 1)),
             none, .retKey .up⟩
      else
        match pyIndexSel p with
        | .error e => .error e
        | .ok i =>
          if i > 0 then
            .ok ⟨touchPage st p.pid fun q => q.setSelected (some (i - 1)),
                 none, .retKey .up⟩
          else .ok ⟨st, none, .retKey .up⟩
  | .down =>
    match st.current_page with
    | none => .error (.attributeError "NoneType has no attribute selected_element")
    | some p =>
      if p.elements ≠ [] ∧ p.selected = none then
        .ok ⟨touchPage st p.pid fun q => q.setSelected (some 0), none, .retKey .down⟩
      else
        match pyIndexSel p with
        | .error e => .error e
        | .ok i =>
          if i < p.elements.length - 1 then
            .ok ⟨touchPage st p.pid fun q => q.setSelected (some (i + 1)),
                 none, .retKey .down⟩
          else .ok ⟨st, none, .retKey .down⟩
  | .other c => .ok ⟨st, none, .retKey (.other c)⟩

/-- The numeric tail of `UI.ask_input` in navigation mode: `user_input` is a
numeral whose value is `k` (`isnumeric` held), and the current page guard at
the top of `ask_input` already passed.  When `int(user_input) <=
len(elements)`, `elements[user_input - 1]` is read (Python indexing: `k = 0`
resolves to the last element, an empty list raises `IndexError`) and its
action, when bound, is invoked.  Returns the invocation performed (element
index and arguments); the navigation state itself is never mutated on this
path. -/
def ask_input_digits (st : UIState) (k : Nat) : Except PyErr (Option (Nat × List PyVal)) :=
  match st.current_page with
  | none => .ok none
  | some p =>
    if k ≤ p.elements.length then
      match pyResolve p.elements.length ((k : Int) - 1) with
      | none => .error .indexError
      | some j =>
        match p.elements[j]? with
        | none => .error .indexError
        | some e =>
          if e.command.isSome then
            match elementCall e with
            | .error err => .error err
            | .ok r => .ok (r.map fun args => (j, args))
          else .ok none
    else .ok none

/-- The navigation invariant of the spec: when `pages` is non-empty,
`0 <= current_page_index < len(pages)` and `current_page` is (the object)
`pages[current_page_index]`. -/
def invariantB (st : UIState) : Bool :=
  if st.pages.isEmpty then true
  else
    match st.current_page with
    | none => false
    | some cp =>
      decide (0 ≤ st.current_page_index) &&
      decide (st.current_page_index < (st.pages.length : Int)) &&
      (match st.pages[st.current_page_index.toNat]? with
       | some q => q.pid == cp.pid
       | none => false)

/-- Selection transition the spec states for the Up key on a page with `n`
elements: unset selects `n - 1`; index `s > 0` moves to `s - 1`; index `0`
stays. -/
def upSel (s : Option Nat) (n : Nat) : Option Nat :=
  match s with
  | none => some (n - 1)
  | some i => if i > 0 then some (i - 1) else some i

/-- Selection transition the spec states for the Down key: unset selects
`0`; `s < n - 1` moves to `s + 1`; `s = n - 1` stays. -/
def downSel (s : Option Nat) (n : Nat) : Option Nat :=
  match s with
  | none => some 0
  | some i => if i < n - 1 then some (i + 1) else some i

/-- What the posix decoder produces for the two bytes after an escape char:
the four canonical arrow sequences, and the escape character itself for
every other pair. -/
def posixEscDecode (a b : Char) : DecodeOut :=
  if a = '[' ∧ b = 'A' then .key .up
  else if a = '[' ∧ b = 'B' then .key .down
  else if a = '[' ∧ b = 'D' then .key .left
  else if a = '[' ∧ b = 'C' then .key .right
  else .key (.ch '\x1b')

/-- What the nt decoder produces for the single byte after an introducer:
the four arrow bytes, and Python `None` for every other byte. -/
def ntArrowDecode (b : Nat) : DecodeOut :=
  if b = 72 then .key .up
  else if b = 80 then .key .down
  else if b = 75 then .key .left
  else if b = 77 then .key .right
  else .noKey

/-! Concrete states used by the bug demonstrations and the witnesses. -/

/-- `UI()` with all defaults. -/
def ui0 : UIState := UI_init "Untitled UI" none true true true

/-- `UI()` followed by `add_page("A")`: one page, no elements. -/
def stOnePage : UIState := (add_page ui0 0 "A" 0).1

/-- `UI()`, `add_page("A")`, `add_page("B")`: two pages, page A current. -/
def stTwoPages : UIState := (add_page stOnePage 1 "B" 0).1

/-- `UI()` followed by `add_page("home")`. -/
def stHomePage : UIState := (add_page ui0 0 "home" 0).1

/-- The page object `add_page("A")` creates in `stOnePage`/`stTwoPages`. -/
def pageA : Page :=
  { pid := 0, label := "A", elements := [], default_padding := "", selected := none }

/-- An element with a zero-arity bound action and no payload. -/
def eZeroArg : Element :=
  { label := "go", command := some { arity := 0 }, params := .scalar .snone,
    color := 0, alignment := .left, status := "" }

/-- A zero-arity action bound together with the tuple payload `(1, 2)`. -/
def eZeroArgTuple : Element :=
  { eZeroArg with params := .tuple [.sint 1, .sint 2] }

/-- A three-argument action bound with payload `(1, 2, 5)`. -/
def eThreeArg : Element :=
  { eZeroArg with command := some ⟨3⟩, params := .tuple [.sint 1, .sint 2, .sint 5] }

/-- An element with no bound action. -/
def eNoCmd : Element :=
  { label := "x", command := none, params := .scalar .snone,
    color := 0, alignment := .left, status := "" }

/-- A page holding one element whose action is bound. -/
def pOneElem : Page :=
  { pid := 5, label := "p", elements := [eZeroArg], default_padding := "",
    selected := none }

/-- A UI whose current page is `pOneElem`. -/
def stOneElem : UIState :=
  { pages := [pOneElem], name := "u", current_page := some pOneElem,
    current_page_index := 0, show_name := true, show_current_page_idx := true,
    show_current_page_name := true, header := "", has_custom_header := false }

/-- A page holding two actionless elements, nothing selected. -/
def pTwoElems : Page :=
  { pid := 0, label := "p", elements := [eNoCmd, eNoCmd], default_padding := "",
    selected := none }

/-- A UI whose current page is `pTwoElems`. -/
def stTwoElems : UIState :=
  { pages := [pTwoElems], name := "u", current_page := some pTwoElems,
    current_page_index := 0, show_name := true, show_current_page_idx := true,
    show_current_page_name := true, header := "", has_custom_header := false }

/-! ## Claim theorems -/

/-- C1: the claim says that for every `k` outside `[1, n]` no element action
is invoked.  The code only checks `int(user_input) <= len(elements)`, so on
a current page with one action-bound element (`n = 1`) the numeric input
`k = 0` resolves `elements[0 - 1]` to `elements[-1]`, the last element, and
invokes its action (with no arguments here): an invocation of element index
`0 = n - 1` is reported for an input outside `[1, n]`. -/
theorem ask_input_zero_invokes_last :
    stOneElem.current_page.map (fun p => p.elements.length) = some 1 ∧
    ask_input_digits stOneElem 0 = .ok (some (0, [])) := by
  exact ⟨rfl, rfl⟩

/-- C2: the claim says `delete_page` with a string removes the first page
whose label matches, and that the reference form for a page not in `pages`
is a silent no-op.  In the code the string lookup reads `getattr(p, "name",
None)` while pages only define `label`, so a UI holding exactly the page
labelled `"home"` still raises `ValueError` on `delete_page("home")`; and a
page reference that is not a member falls into the final `else`, raising
`TypeError` instead of doing nothing. -/
theorem delete_page_by_label_always_raises :
    stHomePage.pages.map Page.label = ["home"] ∧
    delete_page_str stHomePage "home" = .error (.valueError "Page with name not found") ∧
    delete_page_ref stHomePage 99 =
      .error (.typeError "page must be a Page instance or string name") := by
  exact ⟨rfl, rfl, rfl⟩

/-- C3: the claim says the invariant `0 <= current_page_index < len(pages)`
with `current_page = pages[current_page_index]` is preserved by every public
operation, including `delete_page`.  Deleting page `A` from `[A, B]` while
`A` is current removes the list entry but leaves `_current_page` and
`_current_page_index` untouched, so afterwards `pages` is non-empty and the
invariant is false (`current_page` is no longer `pages[0]`). -/
theorem delete_page_violates_current_page_invariant :
    invariantB stTwoPages = true ∧
    (delete_page_ref stTwoPages 0).map
      (fun s => !s.pages.isEmpty && !invariantB s) = .ok true := by
  exact ⟨rfl, rfl⟩

/-- C9: the claim says `handle_key` never raises on a structurally valid key
in a reachable state.  On a freshly added page with no elements (reachable
by `add_page` alone, and the very state `loop()` starts from), the `w`/Up
branch falls to `elements.index(selected_element)` with an unset selection,
and `[].index(None)` raises `ValueError`; the `s`/Down branch does the
same. -/
theorem up_key_on_empty_page_raises :
    stOnePage.current_page.map (fun p => p.elements.length) = some 0 ∧
    handle_navigation_key stOnePage .up = .error (.valueError "not in list") ∧
    handle_navigation_key stOnePage .down = .error (.valueError "not in list") := by
  exact ⟨rfl, rfl, rfl⟩

/-- C7 counterexample: the claim says a zero-arity action is called with
zero arguments for every payload, including a sequence payload, with no
error.  With the tuple payload `(1, 2)` the condition `argcount == 0 and
not isinstance(self.params, tuple)` fails, the general unpacking branch runs
`command(1, 2)`, and the zero-parameter callable raises `TypeError`. -/
theorem zero_arity_tuple_payload_errors :
    elementCall eZeroArgTuple = .error (.typeError "positional argument count mismatch") := by
  exact rfl

/-- C8 counterexample: the claim says every non-arrow trailing two-byte
sequence after the escape introducer yields `None`.  The posix decoder's
`if` chain has no `else`, so it falls through to `return key` and produces
the escape character itself as a key. -/
theorem posix_unknown_escape_produces_key :
    get_keypress_posix ['\x1b', '[', 'Z'] = some (.key (.ch '\x1b'), []) ∧
    DecodeOut.key (.ch '\x1b') ≠ DecodeOut.noKey := by
  exact ⟨rfl, by decide⟩

/-- C10 counterexample: the claim says `render` leaves every field,
including `header`, unchanged.  On a default-constructed UI with one page
the cached header still reads `0/0` from construction time, and `render`
(through `make_header`) overwrites it with the fresh `1/1` header, so the
state after `render` differs from the state before. -/
theorem render_mutates_header :
    (render stOnePage none false true 80).1 ≠ stOnePage := by
  decide

/-- C10 (amended): for every state, `render` leaves `pages`, the current
page reference and index, the selections and the display flags unchanged,
and its only state effect is on `header`: when no custom header is
installed, `header` is overwritten with the freshly generated auto-header
(and left alone otherwise). -/
theorem render_state_effect :
    ∀ (st : UIState) (pageArg : Option Page) (rs si : Bool) (width : Nat),
      (render st pageArg rs si width).1 =
        { st with header := if st.has_custom_header then st.header else make_header_str st } := by
  intro st pa rs si w
  cases hb : st.has_custom_header <;> cases pa <;> cases hc : st.current_page <;>
    simp [render, make_header, hb, hc] <;> (cases st; simp_all)

/-- C8 (amended): after the escape introducer the posix decoder reads
exactly two more chars, maps the four canonical arrow pairs to the arrow
keys, and for every other pair produces the escape character itself as a
key (not `None`); the nt decoder reads exactly one more byte after either
introducer byte and maps `H`/`P`/`K`/`M` to the arrows, producing `None`
for every other byte. -/
theorem keypress_decoder_amended :
    (∀ (a b : Char) (rest : List Char),
      get_keypress_posix ('\x1b' :: a :: b :: rest) = some (posixEscDecode a b, rest))
    ∧ (∀ (b : Nat) (rest : List Nat),
      get_keypress_nt (0x00 :: b :: rest) = some (ntArrowDecode b, rest))
    ∧ (∀ (b : Nat) (rest : List Nat),
      get_keypress_nt (0xe0 :: b :: rest) = some (ntArrowDecode b, rest)) := by
  refine ⟨fun a b rest => ?_, fun b rest => ?_, fun b rest => ?_⟩
  · show (if ('\x1b' : Char) = '\x03' then some (.key .interrupt, a :: b :: rest)
      else if ('\x1b' : Char) = '\x1b' then
        if a = '[' ∧ b = 'A' then some (.key .up, rest)
        else if a = '[' ∧ b = 'B' then some (.key .down, rest)
        else if a = '[' ∧ b = 'D' then some (.key .left, rest)
        else if a = '[' ∧ b = 'C' then some (.key .right, rest)
        else some (.key (.ch '\x1b'), rest)
      else some (.key (.ch '\x1b'), a :: b :: rest)) = some (posixEscDecode a b, rest)
    rw [if_neg (by decide), if_pos rfl]
    unfold posixEscDecode
    split
    · rfl
    · split
      · rfl
      · split
        · rfl
        · split
          · rfl
          · rfl
  · show (if (0x00 : Nat) = 0x03 then some (.key .interrupt, b :: rest)
      else if (0x00 : Nat) = 0x00 ∨ (0x00 : Nat) = 0xe0 then
        if b = 72 then some (.key .up, rest)
        else if b = 80 then some (.key .down, rest)
        else if b = 75 then some (.key .left, rest)
        else if b = 77 then some (.key .right, rest)
        else some (.noKey, rest)
      else some (.key (.ch (Char.ofNat 0x00)), b :: rest)) = some (ntArrowDecode b, rest)
    rw [if_neg (by decide), if_pos (by decide)]
    unfold ntArrowDecode
    split
    · rfl
    · split
      · rfl
      · split
        · rfl
        · split
          · rfl
          · rfl
  · show (if (0xe0 : Nat) = 0x03 then some (.key .interrupt, b :: rest)
      else if (0xe0 : Nat) = 0x00 ∨ (0xe0 : Nat) = 0xe0 then
        if b = 72 then some (.key .up, rest)
        else if b = 80 then some (.key .down, rest)
        else if b = 75 then some (.key .left, rest)
        else if b = 77 then some (.key .right, rest)
        else some (.noKey, rest)
      else some (.key (.ch (Char.ofNat 0xe0)), b :: rest)) = some (ntArrowDecode b, rest)
    rw [if_neg (by decide), if_pos (by decide)]
    unfold ntArrowDecode
    split
    · rfl
    · split
      · rfl
      · split
        · rfl
        · split
          · rfl
          · rfl

/-- C7 (amended): a zero-arity action is called with zero arguments for
every payload that is not a tuple; a tuple payload falls into the general
unpacking branch, which calls the action with the tuple's values, so the
call succeeds with zero arguments only for the empty tuple and raises
`TypeError` for any non-empty tuple payload. -/
theorem zero_arity_invocation_amended (e : Element) (c : Command)
    (hc : e.command = some c) (ha : c.arity = 0) :
    (e.params.isTuple = false → elementCall e = .ok (some []))
    ∧ (e.params = .tuple [] → elementCall e = .ok (some []))
    ∧ (∀ (v : Scalar) (vs : List Scalar), e.params = .tuple (v :: vs) →
        elementCall e = .error (.typeError "positional argument count mismatch")) := by
  refine ⟨fun hp => ?_, fun hp => ?_, fun v vs hp => ?_⟩
  · simp [elementCall, hc, ha, hp, pyCall, Except.map]
  · simp [elementCall, hc, ha, hp, pyCall, PyVal.isTuple, Except.map]
  · simp [elementCall, hc, ha, hp, pyCall, PyVal.isTuple, Except.map]

/-- C7 witness: the amended theorem applied to a concrete zero-arity
element with the payload `None`. -/
theorem zero_arity_invocation_amended_witness :
    (eZeroArg.command = some ⟨0⟩ ∧ (⟨0⟩ : Command).arity = 0)
    ∧ ((eZeroArg.params.isTuple = false → elementCall eZeroArg = .ok (some []))
      ∧ (eZeroArg.params = .tuple [] → elementCall eZeroArg = .ok (some []))
      ∧ (∀ (v : Scalar) (vs : List Scalar), eZeroArg.params = .tuple (v :: vs) →
          elementCall eZeroArg = .error (.typeError "positional argument count mismatch"))) :=
  ⟨⟨rfl, rfl⟩, zero_arity_invocation_amended eZeroArg ⟨0⟩ rfl rfl⟩

/-- C6: for an element whose bound action has declared arity `a >= 2`, a
tuple payload of exactly `a` values is unpacked positionally into the call;
a tuple payload of any other length makes the unpacked call raise
`TypeError` (the wrong argument count), and a non-sequence payload makes
the star-unpacking itself raise `TypeError` — the `InvalidInvocation` of
the spec is this `TypeError`, never a silent miscall. -/
theorem multiarg_invocation_contract (e : Element) (c : Command)
    (hc : e.command = some c) (ha : 2 ≤ c.arity) :
    (∀ vs : List Scalar, e.params = .tuple vs →
        (vs.length = c.arity → elementCall e = .ok (some (vs.map PyVal.scalar)))
      ∧ (vs.length ≠ c.arity →
          elementCall e = .error (.typeError "positional argument count mismatch")))
    ∧ (∀ s : Scalar, e.params = .scalar s →
        elementCall e = .error (.typeError "argument after star must be an iterable")) := by
  have h0 : ¬ c.arity = 0 := by omega
  have h1 : ¬ c.arity = 1 := by omega
  refine ⟨fun vs hp => ⟨fun hlen => ?_, fun hlen => ?_⟩, fun s hp => ?_⟩
  · simp [elementCall, hc, hp, h0, h1, pyCall, hlen, Except.map]
  · simp [elementCall, hc, hp, h0, h1, pyCall, hlen, Except.map]
  · simp [elementCall, hc, hp, h0, h1, PyVal.isTuple]

/-- C6 witness: a three-argument action with payload `(1, 2, 5)` is invoked
as `action(1, 2, 5)`; the contract theorem applied to this element. -/
theorem multiarg_invocation_contract_witness :
    (eThreeArg.command = some ⟨3⟩ ∧ 2 ≤ (⟨3⟩ : Command).arity)
    ∧ ((∀ vs : List Scalar, eThreeArg.params = .tuple vs →
        (vs.length = (⟨3⟩ : Command).arity →
          elementCall eThreeArg = .ok (some (vs.map PyVal.scalar)))
      ∧ (vs.length ≠ (⟨3⟩ : Command).arity →
          elementCall eThreeArg = .error (.typeError "positional argument count mismatch")))
    ∧ (∀ s : Scalar, eThreeArg.params = .scalar s →
        elementCall eThreeArg =
          .error (.typeError "argument after star must be an iterable"))) :=
  ⟨⟨rfl, by decide⟩, multiarg_invocation_contract eThreeArg ⟨3⟩ rfl (by decide)⟩

/-! Helper lemmas about `touchPage` (mutation of one page object) used by
the navigation-key theorems. -/

theorem touchPage_pages_len (st : UIState) (pid : Nat) (f : Page → Page) :
    (touchPage st pid f).pages.length = st.pages.length := by
  simp [touchPage]

theorem touchPage_index (st : UIState) (pid : Nat) (f : Page → Page) :
    (touchPage st pid f).current_page_index = st.current_page_index := rfl

theorem touchPage_get_eq {st : UIState} {pid j : Nat} {p : Page} (f : Page → Page)
    (hj : st.pages[j]? = some p) (hp : p.pid = pid) :
    (touchPage st pid f).pages[j]? = some (f p) := by
  simp [touchPage, List.getElem?_map, hj, hp]

theorem touchPage_get_ne {st : UIState} {pid i : Nat} {q : Page} (f : Page → Page)
    (hi : st.pages[i]? = some q) (hq : ¬ q.pid = pid) :
    (touchPage st pid f).pages[i]? = some q := by
  simp [touchPage, List.getElem?_map, hi, hq]

theorem touchPage_current_eq {st : UIState} {pid : Nat} {p : Page} (f : Page → Page)
    (hc : st.current_page = some p) (hp : p.pid = pid) :
    (touchPage st pid f).current_page = some (f p) := by
  simp [touchPage, hc, hp]

theorem pid_ne_of_nodup {l : List Page} (hnd : (l.map Page.pid).Nodup) {i j : Nat}
    {p q : Page} (hi : l[i]? = some p) (hj : l[j]? = some q) (hij : i ≠ j) :
    p.pid ≠ q.pid := by
  intro hpq
  apply hij
  have hi' : (l.map Page.pid)[i]? = some p.pid := by rw [List.getElem?_map, hi]; rfl
  have hj' : (l.map Page.pid)[j]? = some q.pid := by rw [List.getElem?_map, hj]; rfl
  have hlen : i < (l.map Page.pid).length := by
    rw [List.length_map]
    exact (List.getElem?_eq_some.mp hi).1
  exact List.getElem?_inj hlen hnd (by rw [hi', hj', hpq])

theorem touchPage_get_preserve {st : UIState} {j : Nat} {p : Page}
    (hnd : (st.pages.map Page.pid).Nodup) (hj : st.pages[j]? = some p)
    (f : Page → Page) :
    ∀ i, i ≠ j → (touchPage st p.pid f).pages[i]? = st.pages[i]? := by
  intro i hij
  cases hqi : st.pages[i]? with
  | none => simp [touchPage, List.getElem?_map, hqi]
  | some q =>
    exact touchPage_get_ne f hqi (pid_ne_of_nodup hnd hqi hj hij)

theorem page_eta_selected {p : Page} {s : Option Nat} (h : p.selected = s) :
    { p with selected := s } = p := by
  cases p
  cases h
  rfl

/-- C4: on a current page with `n >= 1` elements, the Up key with an unset
selection selects index `n - 1` and does nothing else that cycle; with
selection `s > 0` it moves to `s - 1`; at `s = 0` it is a no-op.  Down is
symmetric (unset selects `0`, `s < n - 1` moves to `s + 1`, `s = n - 1` is a
no-op).  The new selection always stays inside `[0, n - 1]` (no wraparound),
the page index is untouched, and no other page changes. -/
theorem up_down_selection_contract (st : UIState) (p : Page) (j n : Nat)
    (hnd : (st.pages.map Page.pid).Nodup)
    (hj : st.pages[j]? = some p)
    (hcur : st.current_page = some p)
    (hn : p.elements.length = n)
    (hpos : 1 ≤ n)
    (hsel : ∀ i, p.selected = some i → i < n) :
    (∃ out : NavOut, handle_navigation_key st .up = .ok out
      ∧ out.invoked = none
      ∧ out.ret = .retKey .up
      ∧ out.state.current_page = some { p with selected := upSel p.selected n }
      ∧ out.state.pages[j]? = some { p with selected := upSel p.selected n }
      ∧ (∀ v, upSel p.selected n = some v → v < n)
      ∧ out.state.current_page_index = st.current_page_index
      ∧ out.state.pages.length = st.pages.length
      ∧ (∀ i, i ≠ j → out.state.pages[i]? = st.pages[i]?))
    ∧ (∃ out : NavOut, handle_navigation_key st .down = .ok out
      ∧ out.invoked = none
      ∧ out.ret = .retKey .down
      ∧ out.state.current_page = some { p with selected := downSel p.selected n }
      ∧ out.state.pages[j]? = some { p with selected := downSel p.selected n }
      ∧ (∀ v, downSel p.selected n = some v → v < n)
      ∧ out.state.current_page_index = st.current_page_index
      ∧ out.state.pages.length = st.pages.length
      ∧ (∀ i, i ≠ j → out.state.pages[i]? = st.pages[i]?)) := by
  have hne : p.elements ≠ [] := by
    intro h
    rw [h] at hn
    simp at hn
    omega
  constructor
  · -- Up key
    cases hs : p.selected with
    | none =>
      have hfp : Page.setSelected p (some (p.elements.length - 1)) =
          { p with selected := some (n - 1) } := by
        show (if p.elements.length - 1 < p.elements.length then
            ({ p with selected := some (p.elements.length - 1) } : Page) else p) =
          { p with selected := some (n - 1) }
        rw [hn, if_pos (by omega)]
      have hup : upSel none n = some (n - 1) := rfl
      refine ⟨⟨touchPage st p.pid fun q => q.setSelected (some (q.elements.length - 1)),
          none, .retKey .up⟩, ?_, rfl, rfl, ?_, ?_, ?_, rfl, ?_, ?_⟩
      · simp only [handle_navigation_key, hcur]
        rw [if_pos ⟨hs, hne⟩]
      · show (touchPage st p.pid _).current_page = _
        rw [touchPage_current_eq _ hcur rfl, hup]
        exact congrArg some hfp
      · show (touchPage st p.pid _).pages[j]? = _
        rw [touchPage_get_eq _ hj rfl, hup]
        exact congrArg some hfp
      · intro v hv
        rw [hup] at hv
        simp at hv
        omega
      · exact touchPage_pages_len st p.pid _
      · exact touchPage_get_preserve hnd hj _
    | some s =>
      have hslt : s < n := hsel s hs
      have hidx : pyIndexSel p = .ok s := by
        simp [pyIndexSel, hs, hn, hslt]
      by_cases hgt : s > 0
      · have hup : upSel (some s) n = some (s - 1) := by
          simp [upSel, hgt]
        have hfp : Page.setSelected p (some (s - 1)) =
            { p with selected := some (s - 1) } := by
          show (if s - 1 < p.elements.length then
              ({ p with selected := some (s - 1) } : Page) else p) =
            { p with selected := some (s - 1) }
          rw [hn, if_pos (by omega)]
        refine ⟨⟨touchPage st p.pid fun q => q.setSelected (some (s - 1)),
            none, .retKey .up⟩, ?_, rfl, rfl, ?_, ?_, ?_, rfl, ?_, ?_⟩
        · simp only [handle_navigation_key, hcur]
          rw [if_neg (by simp [hs])]
          simp only [hidx]
          rw [if_pos hgt]
        · show (touchPage st p.pid _).current_page = _
          rw [touchPage_current_eq _ hcur rfl, hup]
          exact congrArg some hfp
        · show (touchPage st p.pid _).pages[j]? = _
          rw [touchPage_get_eq _ hj rfl, hup]
          exact congrArg some hfp
        · intro v hv
          rw [hup] at hv
          simp at hv
          omega
        · exact touchPage_pages_len st p.pid _
        · exact touchPage_get_preserve hnd hj _
      · have hs0 : s = 0 := by omega
        subst hs0
        have hup : upSel (some 0) n = some 0 := by
          simp [upSel]
        refine ⟨⟨st, none, .retKey .up⟩, ?_, rfl, rfl, ?_, ?_, ?_, rfl, rfl, fun i _ => rfl⟩
        · simp only [handle_navigation_key, hcur]
          rw [if_neg (by simp [hs])]
          simp only [hidx]
          rw [if_neg hgt]
        · show st.current_page = _
          rw [hcur, hup, page_eta_selected hs]
        · show st.pages[j]? = _
          rw [hj, hup, page_eta_selected hs]
        · intro v hv
          rw [hup] at hv
          simp at hv
          omega
  · -- Down key
    cases hs : p.selected with
    | none =>
      have hfp : Page.setSelected p (some 0) = { p with selected := some 0 } := by
        show (if 0 < p.elements.length then
            ({ p with selected := some 0 } : Page) else p) = { p with selected := some 0 }
        rw [hn, if_pos (by omega)]
      have hdn : downSel none n = some 0 := rfl
      refine ⟨⟨touchPage st p.pid fun q => q.setSelected (some 0),
          none, .retKey .down⟩, ?_, rfl, rfl, ?_, ?_, ?_, rfl, ?_, ?_⟩
      · simp only [handle_navigation_key, hcur]
        rw [if_pos ⟨hne, hs⟩]
      · show (touchPage st p.pid _).current_page = _
        rw [touchPage_current_eq _ hcur rfl, hdn]
        exact congrArg some hfp
      · show (touchPage st p.pid _).pages[j]? = _
        rw [touchPage_get_eq _ hj rfl, hdn]
        exact congrArg some hfp
      · intro v hv
        rw [hdn] at hv
        simp at hv
        omega
      · exact touchPage_pages_len st p.pid _
      · exact touchPage_get_preserve hnd hj _
    | some s =>
      have hslt : s < n := hsel s hs
      have hidx : pyIndexSel p = .ok s := by
        simp [pyIndexSel, hs, hn, hslt]
      by_cases hlt : s < p.elements.length - 1
      · have hlt2 : s < n - 1 := by omega
        have hdn : downSel (some s) n = some (s + 1) := by
          simp [downSel, hlt2]
        have hfp : Page.setSelected p (some (s + 1)) =
            { p with selected := some (s + 1) } := by
          show (if s + 1 < p.elements.length then
              ({ p with selected := some (s + 1) } : Page) else p) =
            { p with selected := some (s + 1) }
          rw [hn, if_pos (by omega)]
        refine ⟨⟨touchPage st p.pid fun q => q.setSelected (some (s + 1)),
            none, .retKey .down⟩, ?_, rfl, rfl, ?_, ?_, ?_, rfl, ?_, ?_⟩
        · simp only [handle_navigation_key, hcur]
          rw [if_neg (by simp [hs])]
          simp only [hidx]
          rw [if_pos hlt]
        · show (touchPage st p.pid _).current_page = _
          rw [touchPage_current_eq _ hcur rfl, hdn]
          exact congrArg some hfp
        · show (touchPage st p.pid _).pages[j]? = _
          rw [touchPage_get_eq _ hj rfl, hdn]
          exact congrArg some hfp
        · intro v hv
          rw [hdn] at hv
          simp at hv
          omega
        · exact touchPage_pages_len st p.pid _
        · exact touchPage_get_preserve hnd hj _
      · have hdn : downSel (some s) n = some s := by
          simp only [downSel]
          rw [if_neg (by omega)]
        refine ⟨⟨st, none, .retKey .down⟩, ?_, rfl, rfl, ?_, ?_, ?_, rfl, rfl, fun i _ => rfl⟩
        · simp only [handle_navigation_key, hcur]
          rw [if_neg (by simp [hs])]
          simp only [hidx]
          rw [if_neg hlt]
        · show st.current_page = _
          rw [hcur, hdn, page_eta_selected hs]
        · show st.pages[j]? = _
          rw [hj, hdn, page_eta_selected hs]
        · intro v hv
          rw [hdn] at hv
          simp at hv
          omega

/-- C4 witness: the Up/Down contract applied to a concrete UI holding one
page with two elements and no selection. -/
theorem up_down_selection_contract_witness :
    ((stTwoElems.pages.map Page.pid).Nodup
      ∧ stTwoElems.pages[0]? = some pTwoElems
      ∧ stTwoElems.current_page = some pTwoElems
      ∧ pTwoElems.elements.length = 2
      ∧ 1 ≤ 2
      ∧ (∀ i, pTwoElems.selected = some i → i < 2))
    ∧ ((∃ out : NavOut, handle_navigation_key stTwoElems .up = .ok out
      ∧ out.invoked = none
      ∧ out.ret = .retKey .up
      ∧ out.state.current_page = some { pTwoElems with selected := upSel pTwoElems.selected 2 }
      ∧ out.state.pages[0]? = some { pTwoElems with selected := upSel pTwoElems.selected 2 }
      ∧ (∀ v, upSel pTwoElems.selected 2 = some v → v < 2)
      ∧ out.state.current_page_index = stTwoElems.current_page_index
      ∧ out.state.pages.length = stTwoElems.pages.length
      ∧ (∀ i, i ≠ 0 → out.state.pages[i]? = stTwoElems.pages[i]?))
    ∧ (∃ out : NavOut, handle_navigation_key stTwoElems .down = .ok out
      ∧ out.invoked = none
      ∧ out.ret = .retKey .down
      ∧ out.state.current_page = some { pTwoElems with selected := downSel pTwoElems.selected 2 }
      ∧ out.state.pages[0]? = some { pTwoElems with selected := downSel pTwoElems.selected 2 }
      ∧ (∀ v, downSel pTwoElems.selected 2 = some v → v < 2)
      ∧ out.state.current_page_index = stTwoElems.current_page_index
      ∧ out.state.pages.length = stTwoElems.pages.length
      ∧ (∀ i, i ≠ 0 → out.state.pages[i]? = stTwoElems.pages[i]?))) :=
  ⟨⟨by decide, rfl, rfl, rfl, by decide, fun i h => by simp [pTwoElems] at h⟩,
   up_down_selection_contract stTwoElems pTwoElems 0 2 (by decide) rfl rfl rfl
     (by decide) (fun i h => by simp [pTwoElems] at h)⟩

/-- C5: with a coherent non-empty state (index `j` in range, `pages[j]` the
current page), the Right key first clears the selection of the page at
index `j` (the page current before the move) and then increments the index
through the guarded setter: the index becomes `j + 1` only when that stays
in range, and is left at `j` at the last page (no wraparound) with the
selection still cleared.  Left is symmetric with decrement and no
wraparound at the first page.  No other page is touched. -/
theorem page_move_contract (st : UIState) (p : Page) (j : Nat)
    (hnd : (st.pages.map Page.pid).Nodup)
    (hj : st.pages[j]? = some p)
    (hcur : st.current_page = some p)
    (hidx : st.current_page_index = (j : Int)) :
    (∃ out : NavOut, handle_navigation_key st .right = .ok out
      ∧ out.invoked = none
      ∧ out.ret = .retKey .right
      ∧ out.state.pages[j]? = some { p with selected := none }
      ∧ (∀ i, i ≠ j → out.state.pages[i]? = st.pages[i]?)
      ∧ out.state.pages.length = st.pages.length
      ∧ out.state.current_page_index =
          (if j + 1 < st.pages.length then (j : Int) + 1 else (j : Int))
      ∧ (j + 1 < st.pages.length → out.state.current_page = st.pages[j + 1]?)
      ∧ (¬ j + 1 < st.pages.length →
          out.state.current_page = some { p with selected := none }))
    ∧ (∃ out : NavOut, handle_navigation_key st .left = .ok out
      ∧ out.invoked = none
      ∧ out.ret = .retKey .left
      ∧ out.state.pages[j]? = some { p with selected := none }
      ∧ (∀ i, i ≠ j → out.state.pages[i]? = st.pages[i]?)
      ∧ out.state.pages.length = st.pages.length
      ∧ out.state.current_page_index =
          (if 1 ≤ j then (j : Int) - 1 else (j : Int))
      ∧ (1 ≤ j → out.state.current_page = st.pages[j - 1]?)
      ∧ (j = 0 → out.state.current_page = some { p with selected := none })) := by
  have hjlt : j < st.pages.length := (List.getElem?_eq_some.mp hj).1
  have hres : pyResolve st.pages.length st.current_page_index = some j := by
    unfold pyResolve
    rw [hidx]
    rw [if_pos (by omega), if_pos (by exact_mod_cast hjlt)]
    simp
  have hfp : Page.setSelected p none = { p with selected := none } := rfl
  have hlen1 : (touchPage st p.pid fun r => r.setSelected none).pages.length
      = st.pages.length := touchPage_pages_len st p.pid _
  have hcur1 : (touchPage st p.pid fun r => r.setSelected none).current_page
      = some { p with selected := none } := by
    rw [touchPage_current_eq _ hcur rfl, hfp]
  have hgetj : (touchPage st p.pid fun r => r.setSelected none).pages[j]?
      = some { p with selected := none } := by
    rw [touchPage_get_eq _ hj rfl, hfp]
  have hpres : ∀ i, i ≠ j →
      (touchPage st p.pid fun r => r.setSelected none).pages[i]? = st.pages[i]? :=
    touchPage_get_preserve hnd hj _
  constructor
  · -- Right key
    by_cases hin : j + 1 < st.pages.length
    · obtain ⟨q2, hq2⟩ : ∃ q2, st.pages[j + 1]? = some q2 :=
        ⟨_, List.getElem?_eq_getElem hin⟩
      have hq2t : (touchPage st p.pid fun r => r.setSelected none).pages[j + 1]?
          = some q2 := by
        rw [hpres (j + 1) (by omega), hq2]
      have hset : set_current_page_index
            (touchPage st p.pid fun r => r.setSelected none)
            ((touchPage st p.pid fun r => r.setSelected none).current_page_index + 1)
          = { (touchPage st p.pid fun r => r.setSelected none) with
              current_page_index := (j : Int) + 1, current_page := some q2 } := by
        unfold set_current_page_index
        rw [touchPage_index, hidx]
        rw [if_pos ⟨by omega, by simp only [hlen1]; exact_mod_cast hin⟩]
        have htn : ((j : Int) + 1).toNat = j + 1 := by omega
        rw [htn, hq2t]
      refine ⟨⟨set_current_page_index (touchPage st p.pid fun r => r.setSelected none)
          ((touchPage st p.pid fun r => r.setSelected none).current_page_index + 1),
          none, .retKey .right⟩, ?_, rfl, rfl, ?_, ?_, ?_, ?_, ?_, ?_⟩
      · simp only [handle_navigation_key, hres, hj]
      · show (set_current_page_index _ _).pages[j]? = _
        rw [hset]
        exact hgetj
      · intro i hij
        show (set_current_page_index _ _).pages[i]? = _
        rw [hset]
        exact hpres i hij
      · show (set_current_page_index _ _).pages.length = _
        rw [hset]
        exact hlen1
      · show (set_current_page_index _ _).current_page_index = _
        rw [hset, if_pos hin]
      · intro _
        show (set_current_page_index _ _).current_page = _
        rw [hset, hq2]
      · intro h
        exact absurd hin h
    · have hset : set_current_page_index
            (touchPage st p.pid fun r => r.setSelected none)
            ((touchPage st p.pid fun r => r.setSelected none).current_page_index + 1)
          = touchPage st p.pid fun r => r.setSelected none := by
        unfold set_current_page_index
        rw [touchPage_index, hidx]
        rw [if_neg ?hc]
        case hc =>
          simp only [hlen1]
          intro hand
          rcases hand with ⟨h1, h2⟩
          omega
      refine ⟨⟨set_current_page_index (touchPage st p.pid fun r => r.setSelected none)
          ((touchPage st p.pid fun r => r.setSelected none).current_page_index + 1),
          none, .retKey .right⟩, ?_, rfl, rfl, ?_, ?_, ?_, ?_, ?_, ?_⟩
      · simp only [handle_navigation_key, hres, hj]
      · show (set_current_page_index _ _).pages[j]? = _
        rw [hset]
        exact hgetj
      · intro i hij
        show (set_current_page_index _ _).pages[i]? = _
        rw [hset]
        exact hpres i hij
      · show (set_current_page_index _ _).pages.length = _
        rw [hset]
        exact hlen1
      · show (set_current_page_index _ _).current_page_index = _
        rw [hset, touchPage_index, hidx, if_neg hin]
      · intro h
        exact absurd h hin
      · intro _
        show (set_current_page_index _ _).current_page = _
        rw [hset]
        exact hcur1
  · -- Left key
    by_cases hge : 1 ≤ j
    · obtain ⟨q2, hq2⟩ : ∃ q2, st.pages[j - 1]? = some q2 :=
        ⟨_, List.getElem?_eq_getElem (by omega)⟩
      have hq2t : (touchPage st p.pid fun r => r.setSelected none).pages[j - 1]?
          = some q2 := by
        rw [hpres (j - 1) (by omega), hq2]
      have hset : set_current_page_index
            (touchPage st p.pid fun r => r.setSelected none)
            ((touchPage st p.pid fun r => r.setSelected none).current_page_index - 1)
          = { (touchPage st p.pid fun r => r.setSelected none) with
              current_page_index := (j : Int) - 1, current_page := some q2 } := by
        unfold set_current_page_index
        rw [touchPage_index, hidx]
        rw [if_pos ⟨by omega, by simp only [hlen1]; omega⟩]
        have htn : ((j : Int) - 1).toNat = j - 1 := by omega
        rw [htn, hq2t]
      refine ⟨⟨set_current_page_index (touchPage st p.pid fun r => r.setSelected none)
          ((touchPage st p.pid fun r => r.setSelected none).current_page_index - 1),
          none, .retKey .left⟩, ?_, rfl, rfl, ?_, ?_, ?_, ?_, ?_, ?_⟩
      · simp only [handle_navigation_key, hres, hj]
      · show (set_current_page_index _ _).pages[j]? = _
        rw [hset]
        exact hgetj
      · intro i hij
        show (set_current_page_index _ _).pages[i]? = _
        rw [hset]
        exact hpres i hij
      · show (set_current_page_index _ _).pages.length = _
        rw [hset]
        exact hlen1
      · show (set_current_page_index _ _).current_page_index = _
        rw [hset, if_pos hge]
      · intro _
        show (set_current_page_index _ _).current_page = _
        rw [hset, hq2]
      · intro h
        omega
    · have hj0 : j = 0 := by omega
      have hset : set_current_page_index
            (touchPage st p.pid fun r => r.setSelected none)
            ((touchPage st p.pid fun r => r.setSelected none).current_page_index - 1)
          = touchPage st p.pid fun r => r.setSelected none := by
        unfold set_current_page_index
        rw [touchPage_index, hidx, hj0]
        rw [if_neg ?hc]
        case hc =>
          intro hand
          rcases hand with ⟨h1, h2⟩
          omega
      refine ⟨⟨set_current_page_index (touchPage st p.pid fun r => r.setSelected none)
          ((touchPage st p.pid fun r => r.setSelected none).current_page_index - 1),
          none, .retKey .left⟩, ?_, rfl, rfl, ?_, ?_, ?_, ?_, ?_, ?_⟩
      · simp only [handle_navigation_key, hres, hj]
      · show (set_current_page_index _ _).pages[j]? = _
        rw [hset]
        exact hgetj
      · intro i hij
        show (set_current_page_index _ _).pages[i]? = _
        rw [hset]
        exact hpres i hij
      · show (set_current_page_index _ _).pages.length = _
        rw [hset]
        exact hlen1
      · show (set_current_page_index _ _).current_page_index = _
        rw [hset, touchPage_index, hidx, if_neg hge]
      · intro h
        omega
      · intro _
        show (set_current_page_index _ _).current_page = _
        rw [hset]
        exact hcur1

/-- C5 witness: the page-move contract applied to a concrete two-page UI
whose first page is current. -/
theorem page_move_contract_witness :
    ((stTwoPages.pages.map Page.pid).Nodup
      ∧ stTwoPages.pages[0]? = some pageA
      ∧ stTwoPages.current_page = some pageA
      ∧ stTwoPages.current_page_index = ((0 : Nat) : Int))
    ∧ ((∃ out : NavOut, handle_navigation_key stTwoPages .right = .ok out
      ∧ out.invoked = none
      ∧ out.ret = .retKey .right
      ∧ out.state.pages[0]? = some { pageA with selected := none }
      ∧ (∀ i, i ≠ 0 → out.state.pages[i]? = stTwoPages.pages[i]?)
      ∧ out.state.pages.length = stTwoPages.pages.length
      ∧ out.state.current_page_index =
          (if 0 + 1 < stTwoPages.pages.length then ((0 : Nat) : Int) + 1
           else ((0 : Nat) : Int))
      ∧ (0 + 1 < stTwoPages.pages.length →
          out.state.current_page = stTwoPages.pages[0 + 1]?)
      ∧ (¬ 0 + 1 < stTwoPages.pages.length →
          out.state.current_page = some { pageA with selected := none }))
    ∧ (∃ out : NavOut, handle_navigation_key stTwoPages .left = .ok out
      ∧ out.invoked = none
      ∧ out.ret = .retKey .left
      ∧ out.state.pages[0]? = some { pageA with selected := none }
      ∧ (∀ i, i ≠ 0 → out.state.pages[i]? = stTwoPages.pages[i]?)
      ∧ out.state.pages.length = stTwoPages.pages.length
      ∧ out.state.current_page_index =
          (if 1 ≤ 0 then ((0 : Nat) : Int) - 1 else ((0 : Nat) : Int))
      ∧ (1 ≤ 0 → out.state.current_page = stTwoPages.pages[0 - 1]?)
      ∧ (0 = 0 → out.state.current_page = some { pageA with selected := none }))) :=
  ⟨⟨by decide, by decide, by decide, by decide⟩,
   page_move_contract stTwoPages pageA 0 (by decide) (by decide) (by decide) (by decide)⟩

end Tuikit
